import Mathlib

/-!
Shallow embedding of `src/js/borrowing-system.js` (class `BorrowingSystem`).

Modelling conventions:
* Instants are `Int` milliseconds since the epoch.  The JS code stores dates as
  ISO strings and converts back with `new Date(...)`; since that conversion is a
  monotone bijection onto millisecond values we keep the millisecond value.
* Calendar-day addition (`dueDate.setDate(dueDate.getDate() + n)`) is modelled as
  adding `n * msPerDay` milliseconds, i.e. the model runs in a fixed-offset
  (DST-free) time zone.
* Monetary amounts (`fineAmount`, `dailyFine`) are `Rat` (JS numbers used as
  decimals, e.g. the default daily fine `0.50`).
* Each operation takes the clock value `now : Int` explicitly; the several
  `new Date()` / `Date.now()` reads inside one JS method are assumed to observe
  the same millisecond.
* The JS methods return `{success: true, ...}` or `{success: false, error}`;
  we model this as `Except String α` carrying the exact error strings, paired
  with the post-state (the JS methods mutate `this`).
-/

namespace BorrowingSys

/-- Milliseconds in one day (`1000 * 60 * 60 * 24` in `calculateFine`). -/
def msPerDay : Int := 86400000

/-- Transaction status: the JS code uses the strings `'Active'` / `'Returned'`. -/
inductive TxStatus where
  | Active
  | Returned
deriving DecidableEq, Repr

instance : BEq TxStatus := ⟨fun a b => decide (a = b)⟩

instance : LawfulBEq TxStatus where
  eq_of_beq h := by simpa [BEq.beq] using h
  rfl := by simp [BEq.beq]

/-- A loan transaction record, one entry of `this.transactions`. -/
structure Transaction where
  id : String
  bookId : String
  borrowerId : String
  checkoutDate : Int
  dueDate : Int
  returnDate : Option Int
  status : TxStatus
  fineAmount : Rat
  createdAt : Int
deriving DecidableEq, Repr

/-- A borrower record, one entry of `this.borrowers`.  The JS code stores `''`
for absent optional fields, so optional strings are plain strings here. -/
structure Borrower where
  id : String
  name : String
  email : String
  phone : String
  address : String
  createdAt : Int
deriving DecidableEq, Repr

/-- The state held by the `BorrowingSystem` class instance. -/
structure BorrowingSystem where
  borrowers : List Borrower
  transactions : List Transaction
  defaultLoanDays : Int
deriving Repr

/-- The JS guard `!name || name.trim().length === 0`: true exactly when the
string is empty or all whitespace (i.e. empty after trimming). -/
def isBlank (s : String) : Bool :=
  s.data.all Char.isWhitespace

/-- JS `toLowerCase`, character by character. -/
def lowerStr (s : String) : String :=
  ⟨s.data.map Char.toLower⟩

/-- Embedding of `registerBorrower(borrowerData)`.  Here `sanitize` stands for
`Validator.sanitize` (DOM-based HTML escaping plus trim, defined in the
repository outside this engine); the registration logic is independent of it.
Optional fields absent in JS are the empty string (JS falsy). -/
def registerBorrower (sanitize : String → String) (sys : BorrowingSystem)
    (now : Int) (name email phone address : String) :
    BorrowingSystem × Except String Borrower :=
  if isBlank name then
    (sys, .error "Borrower name is required")
  else if email ≠ "" ∧
      (sys.borrowers.find? (fun b =>
        b.email ≠ "" && lowerStr b.email == lowerStr email)).isSome then
    (sys, .error "Borrower with this email already exists")
  else
    let borrower : Borrower :=
      { id := toString now
        name := sanitize name
        email := if email ≠ "" then sanitize email else ""
        phone := if phone ≠ "" then sanitize phone else ""
        address := if address ≠ "" then sanitize address else ""
        createdAt := now }
    ({ sys with borrowers := sys.borrowers ++ [borrower] }, .ok borrower)

/-- The effective loan period: `loanDays || this.defaultLoanDays` — JS `||`
falls back to the default when `loanDays` is `null` or `0` (falsy). -/
def effectiveLoanDays (sys : BorrowingSystem) (loanDays : Option Int) : Int :=
  match loanDays with
  | none => sys.defaultLoanDays
  | some d => if d = 0 then sys.defaultLoanDays else d

/-- Embedding of `checkoutBook(bookId, borrowerId, loanDays = null)`. -/
def checkoutBook (sys : BorrowingSystem) (now : Int)
    (bookId borrowerId : String) (loanDays : Option Int) :
    BorrowingSystem × Except String Transaction :=
  match sys.borrowers.find? (fun b => b.id == borrowerId) with
  | none => (sys, .error "Borrower not found")
  | some _ =>
    match sys.transactions.find? (fun t =>
        t.bookId == bookId && t.status == TxStatus.Active) with
    | some _ => (sys, .error "This book is already checked out")
    | none =>
      let transaction : Transaction :=
        { id := toString now
          bookId := bookId
          borrowerId := borrowerId
          checkoutDate := now
          dueDate := now + effectiveLoanDays sys loanDays * msPerDay
          returnDate := none
          status := .Active
          fineAmount := 0
          createdAt := now }
      ({ sys with transactions := sys.transactions ++ [transaction] },
       .ok transaction)

/-- Replace the first element satisfying `p` by its image under `f`
(the JS code mutates the object returned by `Array.prototype.find`). -/
def updateFirst (p : α → Bool) (f : α → α) : List α → List α
  | [] => []
  | x :: xs => if p x then f x :: xs else x :: updateFirst p f xs

/-- The in-place mutation `returnBook` performs on the found transaction. -/
def markReturned (now : Int) (fineAmount : Rat) (t : Transaction) : Transaction :=
  { t with returnDate := some now, status := .Returned, fineAmount := fineAmount }

/-- Embedding of `returnBook(transactionId, fineAmount)` with an explicit fine amount. -/
def returnBook (sys : BorrowingSystem) (now : Int) (transactionId : String)
    (fineAmount : Rat) : BorrowingSystem × Except String Transaction :=
  match sys.transactions.find? (fun t => t.id == transactionId) with
  | none => (sys, .error "Transaction not found")
  | some t =>
    if t.status ≠ TxStatus.Active then
      (sys, .error "This book is not currently checked out")
    else
      let txs := updateFirst (fun t => t.id == transactionId)
        (markReturned now fineAmount) sys.transactions
      ({ sys with transactions := txs }, .ok (markReturned now fineAmount t))

/-- Embedding of `returnBook(transactionId)` with the JS default parameter `fineAmount = 0`. -/
def returnBookDefault (sys : BorrowingSystem) (now : Int)
    (transactionId : String) : BorrowingSystem × Except String Transaction :=
  returnBook sys now transactionId 0

/-- Embedding of `getActiveTransactions(bookId)`. -/
def getActiveTransactions (sys : BorrowingSystem) (bookId : String) :
    List Transaction :=
  sys.transactions.filter (fun t =>
    t.bookId == bookId && t.status == TxStatus.Active)

/-- Embedding of `getOverdueBooks()`; the clock read `new Date()` is the parameter `now`. -/
def getOverdueBooks (sys : BorrowingSystem) (now : Int) : List Transaction :=
  sys.transactions.filter (fun t =>
    t.status == TxStatus.Active && decide (t.dueDate < now))

/-- The JS default parameter `dailyFine = 0.50` of `calculateFine`. -/
def defaultDailyFine : Rat := 1/2

/-- Embedding of `calculateFine(transactionId, dailyFine)` with an explicit rate.
`Math.ceil((now - dueDate) / (1000*60*60*24))` is the exact rational ceiling:
for millisecond values below 2^53 the double division never crosses an
integer boundary, so the float ceiling equals the rational one. -/
def calculateFine (sys : BorrowingSystem) (now : Int) (transactionId : String)
    (dailyFine : Rat) : Rat :=
  match sys.transactions.find? (fun t => t.id == transactionId) with
  | none => 0
  | some t =>
    if t.status ≠ TxStatus.Active then 0
    else if now ≤ t.dueDate then 0
    else
      let daysOverdue : Int := ⌈((now - t.dueDate : Int) : Rat) / (msPerDay : Rat)⌉
      (daysOverdue : Rat) * dailyFine

/-- Embedding of `calculateFine(transactionId)` using the built-in default rate. -/
def calculateFineDefault (sys : BorrowingSystem) (now : Int)
    (transactionId : String) : Rat :=
  calculateFine sys now transactionId defaultDailyFine

/-- States reachable from an empty ledger (any borrower directory, the
constructor's `defaultLoanDays = 14`) by checkout and return operations. -/
inductive Reachable : BorrowingSystem → Prop where
  | init (bs : List Borrower) : Reachable ⟨bs, [], 14⟩
  | checkout (s : BorrowingSystem) (now : Int) (bookId borrowerId : String)
      (loanDays : Option Int) : Reachable s →
      Reachable (checkoutBook s now bookId borrowerId loanDays).1
  | ret (s : BorrowingSystem) (now : Int) (tid : String) (fine : Rat) :
      Reachable s → Reachable (returnBook s now tid fine).1

/-- Reachability where every return supplies a non-negative fine amount. -/
inductive ReachableNN : BorrowingSystem → Prop where
  | init (bs : List Borrower) : ReachableNN ⟨bs, [], 14⟩
  | checkout (s : BorrowingSystem) (now : Int) (bookId borrowerId : String)
      (loanDays : Option Int) : ReachableNN s →
      ReachableNN (checkoutBook s now bookId borrowerId loanDays).1
  | ret (s : BorrowingSystem) (now : Int) (tid : String) (fine : Rat) :
      0 ≤ fine → ReachableNN s →
      ReachableNN (returnBook s now tid fine).1

/-- The predicate selecting the `Active` transactions of one book. -/
def activeFor (bookId : String) (t : Transaction) : Bool :=
  t.bookId == bookId && t.status == TxStatus.Active

/-- Sample borrower used by concrete witnesses (spec §8 round-trip scenario). -/
def ada : Borrower :=
  { id := "B1", name := "Ada", email := "a@x.com", phone := "", address := "",
    createdAt := 0 }

/-- Initial state: Ada registered, empty ledger. -/
def startSys : BorrowingSystem := ⟨[ada], [], 14⟩

/-- State after Ada checks out ITEM1 at instant 0 for 14 days. -/
def sysAfterCheckout : BorrowingSystem :=
  (checkoutBook startSys 0 "ITEM1" "B1" (some 14)).1

/-- The transaction created by that checkout. -/
def tx0 : Transaction :=
  { id := "0", bookId := "ITEM1", borrowerId := "B1", checkoutDate := 0,
    dueDate := 14 * msPerDay, returnDate := none, status := .Active,
    fineAmount := 0, createdAt := 0 }

theorem length_filter_updateFirst_le (p q : α → Bool) (f : α → α) (l : List α)
    (hf : ∀ x, q (f x) = false) :
    ((updateFirst p f l).filter q).length ≤ (l.filter q).length := by
  induction l with
  | nil => simp [updateFirst]
  | cons x xs ih =>
    simp only [updateFirst]
    by_cases hp : p x = true
    · rw [if_pos hp]
      simp only [List.filter_cons, hf x]
      by_cases hq : q x = true
      · rw [if_pos hq]
        simp only [Bool.false_eq_true, if_false, List.length_cons]
        omega
      · rw [if_neg hq]
        simp
    · rw [if_neg hp]
      simp only [List.filter_cons]
      by_cases hq : q x = true
      · rw [if_pos hq, if_pos hq]
        simp only [List.length_cons]
        omega
      · rw [if_neg hq, if_neg hq]
        exact ih

/-- C1: in every state reachable from the empty ledger by checkout and return
operations, at most one transaction per item has status `Active`:
`checkoutBook` refuses without appending when an `Active` transaction for the
item exists, and `returnBook` never sets a status to `Active`. -/
theorem c1_single_active_invariant (s : BorrowingSystem) (h : Reachable s)
    (bookId : String) :
    (s.transactions.filter (activeFor bookId)).length ≤ 1 := by
  induction h with
  | init bs => simp
  | checkout s now bid brid ld _ ih =>
    unfold checkoutBook
    cases hb : s.borrowers.find? (fun b => b.id == brid) with
    | none => simpa using ih
    | some b =>
      simp only
      cases ht : s.transactions.find? (fun t => t.bookId == bid && t.status == TxStatus.Active) with
      | some t => simpa using ih
      | none =>
        simp only [List.filter_append]
        by_cases hsame : bookId = bid
        · subst hsame
          have hnil : s.transactions.filter (activeFor bookId) = [] := by
            apply List.filter_eq_nil_iff.mpr
            intro t htmem
            have := List.find?_eq_none.mp ht t htmem
            simpa [activeFor] using this
          rw [hnil]
          simp [activeFor]
        · have hnew : activeFor bookId
              { id := toString now, bookId := bid, borrowerId := brid,
                checkoutDate := now,
                dueDate := now + effectiveLoanDays s ld * msPerDay,
                returnDate := none, status := .Active, fineAmount := 0,
                createdAt := now } = false := by
            simp only [activeFor, Bool.and_eq_false_iff]
            left
            simp only [beq_eq_false_iff_ne, ne_eq]
            intro hc
            exact hsame hc.symm
          simp only [List.filter_cons, hnew, Bool.false_eq_true, if_false,
            List.filter_nil, List.append_nil]
          exact ih
  | ret s now tid fine _ ih =>
    unfold returnBook
    cases ht : s.transactions.find? (fun t => t.id == tid) with
    | none => simpa using ih
    | some t =>
      simp only
      by_cases hst : t.status ≠ TxStatus.Active
      · rw [if_pos hst]
        simpa using ih
      · rw [if_neg hst]
        simp only
        refine le_trans ?_ ih
        apply length_filter_updateFirst_le
        intro x
        simp [activeFor, markReturned]

/-- Witness for C1 at a concrete reachable state. -/
theorem c1_single_active_invariant_witness :
    (sysAfterCheckout.transactions.filter (activeFor "ITEM1")).length ≤ 1 :=
  c1_single_active_invariant sysAfterCheckout
    (Reachable.checkout startSys 0 "ITEM1" "B1" (some 14) (Reachable.init [ada]))
    "ITEM1"



/-- C2 fails as stated: the JS fallback `loanDays || this.defaultLoanDays`
treats an explicit `0` as falsy, so checkout with `loanDays = 0` succeeds with
due instant `T + 14 days`, not `T + 0 days` as the claim requires. -/
theorem c2_counterexample :
    (checkoutBook startSys 0 "ITEM1" "B1" (some 0)).2 = .ok tx0 ∧
    tx0.dueDate ≠ 0 + 0 * msPerDay := by
  constructor
  · rfl
  · decide

/-- C2 (amended): for every checkout succeeding at instant `T` with an explicit
NONZERO `loanDurationDays`, the transaction has checkout instant `T` and due
instant `T + loanDurationDays` days; with no explicit period the call behaves
exactly as passing the default policy value of 14 days. -/
theorem c2_due_date (sys : BorrowingSystem) (now : Int)
    (bookId borrowerId : String) (d : Int) (hd : d ≠ 0) :
    (∀ tx, (checkoutBook sys now bookId borrowerId (some d)).2 = .ok tx →
      tx.checkoutDate = now ∧ tx.dueDate = now + d * msPerDay) ∧
    (sys.defaultLoanDays = 14 →
      checkoutBook sys now bookId borrowerId none =
        checkoutBook sys now bookId borrowerId (some 14)) := by
  constructor
  · intro tx htx
    have heff : effectiveLoanDays sys (some d) = d := by
      simp [effectiveLoanDays, hd]
    unfold checkoutBook at htx
    cases hb : sys.borrowers.find? (fun b => b.id == borrowerId) with
    | none => rw [hb] at htx; exact absurd htx (by simp)
    | some b =>
      rw [hb] at htx
      simp only at htx
      cases ht : sys.transactions.find? (fun t => t.bookId == bookId && t.status == TxStatus.Active) with
      | some t => rw [ht] at htx; exact absurd htx (by simp)
      | none =>
        rw [ht] at htx
        simp only [Except.ok.injEq] at htx
        rw [← htx, heff]
        exact ⟨rfl, rfl⟩
  · intro h14
    have heff : effectiveLoanDays sys none = effectiveLoanDays sys (some 14) := by
      simp [effectiveLoanDays, h14]
    unfold checkoutBook
    rw [heff]

/-- Witness for the amended C2 at a concrete input. -/
theorem c2_due_date_witness :
    tx0.checkoutDate = 0 ∧ tx0.dueDate = 0 + 14 * msPerDay :=
  (c2_due_date startSys 0 "ITEM1" "B1" 14 (by decide)).1 tx0 rfl

/-- C3: whenever `checkoutBook` or `returnBook` fails, the transactions
collection is left exactly as it was. -/
theorem c3_failure_leaves_ledger (sys : BorrowingSystem) (now : Int)
    (bookId borrowerId : String) (ld : Option Int) (tid : String) (fine : Rat)
    (e e' : String) :
    ((checkoutBook sys now bookId borrowerId ld).2 = .error e →
      (checkoutBook sys now bookId borrowerId ld).1.transactions = sys.transactions) ∧
    ((returnBook sys now tid fine).2 = .error e' →
      (returnBook sys now tid fine).1.transactions = sys.transactions) := by
  constructor
  · intro he
    unfold checkoutBook at he ⊢
    cases hb : sys.borrowers.find? (fun b => b.id == borrowerId) with
    | none => rfl
    | some b =>
      rw [hb] at he
      simp only at he ⊢
      cases ht : sys.transactions.find? (fun t => t.bookId == bookId && t.status == TxStatus.Active) with
      | some t => rfl
      | none =>
        rw [ht] at he
        simp at he
  · intro he
    unfold returnBook at he ⊢
    cases ht : sys.transactions.find? (fun t => t.id == tid) with
    | none => rfl
    | some t =>
      rw [ht] at he
      simp only at he ⊢
      by_cases hst : t.status ≠ TxStatus.Active
      · rw [if_pos hst]
      · rw [if_neg hst] at he
        simp at he

/-- Witness for C3: a failed checkout (unknown borrower) and a failed return
(unknown transaction) leave the ledger unchanged. -/
theorem c3_failure_leaves_ledger_witness :
    (checkoutBook startSys 0 "ITEM1" "NOBODY" none).1.transactions = startSys.transactions ∧
    (returnBook startSys 0 "NOTX" 0).1.transactions = startSys.transactions :=
  ⟨(c3_failure_leaves_ledger startSys 0 "ITEM1" "NOBODY" none "NOTX" 0
      "Borrower not found" "Transaction not found").1 rfl,
   (c3_failure_leaves_ledger startSys 0 "ITEM1" "NOBODY" none "NOTX" 0
      "Borrower not found" "Transaction not found").2 rfl⟩



/-- C4: `returnBook` fails with `TransactionNotFound` exactly when no
transaction has the identifier, fails with `TransactionNotActive` exactly when
the (first) transaction found is not `Active`, and otherwise succeeds, setting
return instant to `now`, status to `Returned`, fine amount to the supplied
value (the JS default supplies 0). -/
theorem c4_return_spec (sys : BorrowingSystem) (now : Int) (tid : String)
    (fine : Rat) :
    ((returnBook sys now tid fine).2 = .error "Transaction not found" ↔
      ∀ t ∈ sys.transactions, t.id ≠ tid) ∧
    ((returnBook sys now tid fine).2 = .error "This book is not currently checked out" ↔
      ∃ t, sys.transactions.find? (fun t => t.id == tid) = some t ∧
        t.status ≠ TxStatus.Active) ∧
    (∀ t, sys.transactions.find? (fun t => t.id == tid) = some t →
      t.status = TxStatus.Active →
      (returnBook sys now tid fine).2 =
        .ok { t with returnDate := some now, status := .Returned,
                     fineAmount := fine }) ∧
    returnBookDefault sys now tid = returnBook sys now tid 0 := by
  refine ⟨?_, ?_, ?_, rfl⟩
  · cases ht : sys.transactions.find? (fun t => t.id == tid) with
    | none =>
      constructor
      · intro _ t htm
        have := List.find?_eq_none.mp ht t htm
        simpa using this
      · intro _
        unfold returnBook
        rw [ht]
    | some t =>
      constructor
      · intro he
        unfold returnBook at he
        rw [ht] at he
        simp only at he
        by_cases hst : t.status ≠ TxStatus.Active
        · rw [if_pos hst] at he
          simp only [Except.error.injEq] at he
          exact absurd he (by decide)
        · rw [if_neg hst] at he
          simp at he
      · intro hall
        have hp := List.find?_some ht
        have hmem := List.mem_of_find?_eq_some ht
        exact absurd (by simpa using hp) (hall t hmem)
  · cases ht : sys.transactions.find? (fun t => t.id == tid) with
    | none =>
      constructor
      · intro he
        unfold returnBook at he
        rw [ht] at he
        simp only [Except.error.injEq] at he
        exact absurd he (by decide)
      · rintro ⟨t, hfind, -⟩
        exact absurd hfind (by simp)
    | some t =>
      by_cases hst : t.status ≠ TxStatus.Active
      · constructor
        · intro _
          exact ⟨t, rfl, hst⟩
        · intro _
          unfold returnBook
          rw [ht]
          simp only
          rw [if_pos hst]
      · constructor
        · intro he
          unfold returnBook at he
          rw [ht] at he
          simp only at he
          rw [if_neg hst] at he
          simp at he
        · rintro ⟨t', hfind, hst'⟩
          injection hfind with h
          rw [← h] at hst'
          exact absurd hst' hst
  · intro t ht hst
    unfold returnBook
    rw [ht]
    simp only
    rw [if_neg (fun hc => hc hst)]
    rfl

/-- Witness for C4 at a concrete return. -/
theorem c4_return_spec_witness :
    (returnBook sysAfterCheckout (15 * msPerDay) "0" (1/2)).2 =
      .ok { tx0 with returnDate := some (15 * msPerDay), status := .Returned,
                     fineAmount := 1/2 } :=
  (c4_return_spec sysAfterCheckout (15 * msPerDay) "0" (1/2)).2.2.1 tx0 rfl rfl

/-- C6: once a transaction is `Returned`, any further `returnBook` on its
identifier fails with `TransactionNotActive` and leaves the whole state (in
particular `returnDate` and `fineAmount`) unchanged. -/
theorem c6_returned_terminal (sys : BorrowingSystem) (now : Int) (tid : String)
    (fine : Rat) (t : Transaction)
    (hf : sys.transactions.find? (fun t => t.id == tid) = some t)
    (hs : t.status = TxStatus.Returned) :
    (returnBook sys now tid fine).2 = .error "This book is not currently checked out" ∧
    (returnBook sys now tid fine).1 = sys := by
  have hne : t.status ≠ TxStatus.Active := by rw [hs]; decide
  unfold returnBook
  rw [hf]
  simp only
  rw [if_pos hne]
  exact ⟨rfl, rfl⟩

/-- State after the checked-out item is returned at day 15 with fine 1/2. -/
def sysReturned : BorrowingSystem :=
  (returnBook sysAfterCheckout (15 * msPerDay) "0" (1/2)).1

/-- Witness for C6: a double return fails and changes nothing. -/
theorem c6_returned_terminal_witness :
    (returnBook sysReturned (16 * msPerDay) "0" 3).2 =
      .error "This book is not currently checked out" ∧
    (returnBook sysReturned (16 * msPerDay) "0" 3).1 = sysReturned :=
  c6_returned_terminal sysReturned (16 * msPerDay) "0" 3
    (markReturned (15 * msPerDay) (1/2) tx0) rfl rfl



/-- C5: `calculateFine` returns 0 when the transaction is missing, not
`Active`, or not yet overdue; otherwise it charges
`ceil((now - dueDate) / 1 day) * dailyFine`, and any positive overdue amount up
to 24 hours is charged exactly one day's rate.  The operation is a pure read:
it returns a value and no successor state. -/
theorem c5_fine_spec (sys : BorrowingSystem) (now : Int) (tid : String)
    (rate : Rat) :
    (sys.transactions.find? (fun t => t.id == tid) = none →
      calculateFine sys now tid rate = 0) ∧
    (∀ t, sys.transactions.find? (fun t => t.id == tid) = some t →
      (t.status ≠ TxStatus.Active → calculateFine sys now tid rate = 0) ∧
      (now ≤ t.dueDate → calculateFine sys now tid rate = 0) ∧
      (t.status = TxStatus.Active → t.dueDate < now →
        calculateFine sys now tid rate =
          ((⌈((now - t.dueDate : Int) : Rat) / (msPerDay : Rat)⌉ : Int) : Rat) * rate) ∧
      (t.status = TxStatus.Active → t.dueDate < now → now - t.dueDate ≤ msPerDay →
        calculateFine sys now tid rate = rate)) := by
  constructor
  · intro ht
    unfold calculateFine
    rw [ht]
  · intro t ht
    have hceil : t.status = TxStatus.Active → t.dueDate < now →
        calculateFine sys now tid rate =
          ((⌈((now - t.dueDate : Int) : Rat) / (msPerDay : Rat)⌉ : Int) : Rat) * rate := by
      intro hst hlt
      unfold calculateFine
      rw [ht]
      simp only
      rw [if_neg (fun hc => hc hst), if_neg (not_le.mpr hlt)]
    refine ⟨?_, ?_, hceil, ?_⟩
    · intro hst
      unfold calculateFine
      rw [ht]
      simp only
      rw [if_pos hst]
    · intro hle
      unfold calculateFine
      rw [ht]
      simp only
      by_cases hst : t.status ≠ TxStatus.Active
      · rw [if_pos hst]
      · rw [if_neg hst, if_pos hle]
    · intro hst hlt hle
      rw [hceil hst hlt]
      have hx0 : (0 : Rat) < ((now - t.dueDate : Int) : Rat) / (msPerDay : Rat) := by
        apply div_pos
        · exact_mod_cast sub_pos.mpr hlt
        · norm_num [msPerDay]
      have hx1 : ((now - t.dueDate : Int) : Rat) / (msPerDay : Rat) ≤ 1 := by
        rw [div_le_one (by norm_num [msPerDay])]
        exact_mod_cast hle
      have h1 : ⌈((now - t.dueDate : Int) : Rat) / (msPerDay : Rat)⌉ = 1 := by
        have hub : ⌈((now - t.dueDate : Int) : Rat) / (msPerDay : Rat)⌉ ≤ 1 :=
          Int.ceil_le.mpr (by simpa using hx1)
        have hlb : 0 < ⌈((now - t.dueDate : Int) : Rat) / (msPerDay : Rat)⌉ :=
          Int.lt_ceil.mpr (by simpa using hx0)
        omega
      rw [h1]
      norm_num

/-- Witness for C5: the round-trip scenario fine, one millisecond overdue. -/
theorem c5_fine_spec_witness :
    calculateFine sysAfterCheckout (14 * msPerDay + 1) "0" (1/2) = 1/2 :=
  ((c5_fine_spec sysAfterCheckout (14 * msPerDay + 1) "0" (1/2)).2 tx0
    rfl).2.2.2 rfl (by decide) (by decide)



theorem mem_updateFirst {p : α → Bool} {f : α → α} {l : List α} {y : α}
    (h : y ∈ updateFirst p f l) : y ∈ l ∨ ∃ x ∈ l, y = f x := by
  induction l with
  | nil => simp [updateFirst] at h
  | cons x xs ih =>
    simp only [updateFirst] at h
    by_cases hp : p x = true
    · rw [if_pos hp] at h
      rcases List.mem_cons.mp h with h1 | h2
      · exact Or.inr ⟨x, List.mem_cons_self x xs, h1⟩
      · exact Or.inl (List.mem_cons_of_mem x h2)
    · rw [if_neg hp] at h
      rcases List.mem_cons.mp h with h1 | h2
      · exact Or.inl (h1 ▸ List.mem_cons_self x xs)
      · rcases ih h2 with h3 | ⟨z, hz, hy⟩
        · exact Or.inl (List.mem_cons_of_mem x h3)
        · exact Or.inr ⟨z, List.mem_cons_of_mem x hz, hy⟩

theorem getElem?_updateFirst_of_ne {p : α → Bool} (f : α → α)
    (l : List α) (i : Nat) (t : α) (hl : l[i]? = some t)
    (hne : ∀ x, l.find? p = some x → t ≠ x) :
    (updateFirst p f l)[i]? = some t := by
  induction l generalizing i with
  | nil => simp at hl
  | cons y ys ih =>
    simp only [updateFirst]
    by_cases hp : p y = true
    · rw [if_pos hp]
      have hfind : (y :: ys).find? p = some y := by
        simp [List.find?, hp]
      have hty : t ≠ y := hne y hfind
      cases i with
      | zero =>
        simp only [List.getElem?_cons_zero, Option.some.injEq] at hl
        exact absurd hl.symm hty
      | succ n =>
        simpa using hl
    · rw [if_neg hp]
      cases i with
      | zero => simpa using hl
      | succ n =>
        simp only [List.getElem?_cons_succ] at hl ⊢
        refine ih n hl ?_
        intro x hx
        refine hne x ?_
        simpa [List.find?, hp] using hx

/-- C7 fails as stated: `returnBook` stores whatever fine amount the caller
supplies without a sign check, so a reachable state can hold a negative fine. -/
def sysNegFine : BorrowingSystem :=
  (returnBook sysAfterCheckout (15 * msPerDay) "0" (-1)).1

theorem c7_counterexample :
    Reachable sysNegFine ∧
    sysNegFine.transactions.map Transaction.fineAmount = [(-1 : Rat)] ∧
    ¬ (0 : Rat) ≤ (-1 : Rat) :=
  ⟨Reachable.ret sysAfterCheckout (15 * msPerDay) "0" (-1)
     (Reachable.checkout startSys 0 "ITEM1" "B1" (some 14) (Reachable.init [ada])),
   rfl, by norm_num⟩

/-- C7 (amended): in every state reachable with non-negative supplied fines,
every fine amount is non-negative and is 0 while the transaction is `Active`;
and neither `checkoutBook` nor `returnBook` ever modifies an entry that is
already `Returned` (its fine keeps the value set at return time). -/
theorem c7_fine_invariant :
    (∀ s, ReachableNN s → ∀ t ∈ s.transactions,
      0 ≤ t.fineAmount ∧ (t.status = TxStatus.Active → t.fineAmount = 0)) ∧
    (∀ s (now : Int) bid brid ld (i : Nat) t, s.transactions[i]? = some t →
      t.status = TxStatus.Returned →
      (checkoutBook s now bid brid ld).1.transactions[i]? = some t) ∧
    (∀ s (now : Int) tid fine (i : Nat) t, s.transactions[i]? = some t →
      t.status = TxStatus.Returned →
      (returnBook s now tid fine).1.transactions[i]? = some t) := by
  refine ⟨?_, ?_, ?_⟩
  · intro s h
    induction h with
    | init bs => simp
    | checkout s now bid brid ld _ ih =>
      intro t ht
      unfold checkoutBook at ht
      cases hb : s.borrowers.find? (fun b => b.id == brid) with
      | none => rw [hb] at ht; exact ih t ht
      | some b =>
        rw [hb] at ht
        simp only at ht
        cases hfa : s.transactions.find? (fun t => t.bookId == bid && t.status == TxStatus.Active) with
        | some t0 => rw [hfa] at ht; exact ih t ht
        | none =>
          rw [hfa] at ht
          simp only at ht
          rcases List.mem_append.mp ht with hold | hnew
          · exact ih t hold
          · simp only [List.mem_singleton] at hnew
            subst hnew
            exact ⟨le_refl 0, fun _ => rfl⟩
    | ret s now tid fine hfee _ ih =>
      intro t ht
      unfold returnBook at ht
      cases hf : s.transactions.find? (fun t => t.id == tid) with
      | none => rw [hf] at ht; exact ih t ht
      | some t0 =>
        rw [hf] at ht
        simp only at ht
        by_cases hst : t0.status ≠ TxStatus.Active
        · rw [if_pos hst] at ht; exact ih t ht
        · rw [if_neg hst] at ht
          simp only at ht
          rcases mem_updateFirst ht with hold | ⟨x, _, hx⟩
          · exact ih t hold
          · subst hx
            refine ⟨hfee, ?_⟩
            intro hc
            simp [markReturned] at hc
  · intro s now bid brid ld i t ht hret
    unfold checkoutBook
    cases hb : s.borrowers.find? (fun b => b.id == brid) with
    | none => exact ht
    | some b =>
      simp only
      cases hfa : s.transactions.find? (fun t => t.bookId == bid && t.status == TxStatus.Active) with
      | some t0 => exact ht
      | none =>
        simp only
        have hi : i < s.transactions.length := by
          rcases List.getElem?_eq_some.mp ht with ⟨h, _⟩
          exact h
        rw [List.getElem?_append, if_pos hi]
        exact ht
  · intro s now tid fine i t ht hret
    unfold returnBook
    cases hf : s.transactions.find? (fun t => t.id == tid) with
    | none => exact ht
    | some t0 =>
      simp only
      by_cases hst : t0.status ≠ TxStatus.Active
      · rw [if_pos hst]
        exact ht
      · rw [if_neg hst]
        simp only
        apply getElem?_updateFirst_of_ne _ _ _ _ ht
        intro x hx
        rw [hf] at hx
        injection hx with hx
        subst hx
        intro hc
        rw [hc] at hret
        rw [hret] at hst
        exact hst (by decide)

/-- Witness for the amended C7 at a concrete reachable state. -/
theorem c7_fine_invariant_witness :
    0 ≤ tx0.fineAmount ∧ (tx0.status = TxStatus.Active → tx0.fineAmount = 0) :=
  c7_fine_invariant.1 sysAfterCheckout
    (ReachableNN.checkout startSys 0 "ITEM1" "B1" (some 14) (ReachableNN.init [ada]))
    tx0 (by decide)

/-- C8: `getOverdueBooks` returns exactly the `Active` transactions whose due
instant is strictly before `now`; one due exactly at `now` is excluded, and no
`Returned` transaction is ever included. -/
theorem c8_overdue_spec (sys : BorrowingSystem) (now : Int) (t : Transaction) :
    t ∈ getOverdueBooks sys now ↔
      t ∈ sys.transactions ∧ t.status = TxStatus.Active ∧ t.dueDate < now := by
  simp [getOverdueBooks, List.mem_filter, and_assoc]

/-- Witness for C8 at a concrete overdue state. -/
theorem c8_overdue_spec_witness :
    tx0 ∈ getOverdueBooks sysAfterCheckout (15 * msPerDay) :=
  (c8_overdue_spec sysAfterCheckout (15 * msPerDay) tx0).mpr
    ⟨by decide, rfl, by decide⟩

/-- C9: `registerBorrower` fails with `MissingName` exactly when the name is
empty after trimming, fails with `DuplicateEmail` exactly when an email is
supplied and an existing borrower carries the same email case-insensitively,
and otherwise appends a freshly identified borrower to the directory. -/
theorem c9_register_spec (san : String → String) (sys : BorrowingSystem)
    (now : Int) (name email phone address : String) :
    ((registerBorrower san sys now name email phone address).2 =
        .error "Borrower name is required" ↔ isBlank name = true) ∧
    (isBlank name = false →
      ((registerBorrower san sys now name email phone address).2 =
          .error "Borrower with this email already exists" ↔
        email ≠ "" ∧ ∃ b ∈ sys.borrowers, b.email ≠ "" ∧
          lowerStr b.email = lowerStr email)) ∧
    (isBlank name = false →
      ¬(email ≠ "" ∧ ∃ b ∈ sys.borrowers, b.email ≠ "" ∧
          lowerStr b.email = lowerStr email) →
      (registerBorrower san sys now name email phone address).2 =
        .ok { id := toString now, name := san name,
              email := if email ≠ "" then san email else "",
              phone := if phone ≠ "" then san phone else "",
              address := if address ≠ "" then san address else "",
              createdAt := now } ∧
      (registerBorrower san sys now name email phone address).1.borrowers =
        sys.borrowers ++
          [{ id := toString now, name := san name,
             email := if email ≠ "" then san email else "",
             phone := if phone ≠ "" then san phone else "",
             address := if address ≠ "" then san address else "",
             createdAt := now }]) := by
  have hdup : (email ≠ "" ∧ (sys.borrowers.find? (fun b =>
        b.email ≠ "" && lowerStr b.email == lowerStr email)).isSome) ↔
      (email ≠ "" ∧ ∃ b ∈ sys.borrowers, b.email ≠ "" ∧
        lowerStr b.email = lowerStr email) := by
    apply and_congr_right
    intro _
    rw [List.find?_isSome]
    constructor
    · rintro ⟨b, hb, hpb⟩
      refine ⟨b, hb, ?_⟩
      simpa using hpb
    · rintro ⟨b, hb, h1, h2⟩
      exact ⟨b, hb, by simp [h1, h2]⟩
  unfold registerBorrower
  by_cases hname : isBlank name
  · rw [if_pos hname]
    refine ⟨⟨fun _ => hname, fun _ => rfl⟩, ?_, ?_⟩
    · intro hn
      rw [hname] at hn
      exact absurd hn (by decide)
    · intro hn
      rw [hname] at hn
      exact absurd hn (by decide)
  · rw [if_neg hname]
    by_cases hd : email ≠ "" ∧ (sys.borrowers.find? (fun b =>
        b.email ≠ "" && lowerStr b.email == lowerStr email)).isSome
    · rw [if_pos hd]
      refine ⟨?_, ?_, ?_⟩
      · constructor
        · intro he
          simp only [Except.error.injEq] at he
          exact absurd he (by decide)
        · intro hbl
          exact absurd hbl (by simpa using hname)
      · intro _
        exact ⟨fun _ => hdup.mp hd, fun _ => rfl⟩
      · intro _ hcon
        exact absurd (hdup.mp hd) hcon
    · rw [if_neg hd]
      refine ⟨?_, ?_, ?_⟩
      · constructor
        · intro he
          simp at he
        · intro hbl
          exact absurd hbl (by simpa using hname)
      · intro _
        constructor
        · intro he
          simp at he
        · intro hc
          exact absurd (hdup.mpr hc) hd
      · intro _ _
        exact ⟨rfl, rfl⟩

/-- Witness for C9: a successful registration appends the borrower. -/
theorem c9_register_spec_witness :
    (registerBorrower (fun s => s) startSys 7 "Bob" "" "" "").2 =
      .ok { id := "7", name := "Bob", email := "", phone := "", address := "",
            createdAt := 7 } ∧
    (registerBorrower (fun s => s) startSys 7 "Bob" "" "" "").1.borrowers =
      startSys.borrowers ++
        [{ id := "7", name := "Bob", email := "", phone := "", address := "",
           createdAt := 7 }] := by
  have h := (c9_register_spec (fun s => s) startSys 7 "Bob" "" "" "").2.2
    (by decide) (by simp)
  simpa using h

/-- C10: called without a rate, `calculateFine` uses the built-in default of
0.50 per overdue day: an `Active` transaction overdue by `d` counted days is
charged `d * 0.50`. -/
theorem c10_default_rate (sys : BorrowingSystem) (now : Int) (tid : String)
    (d : Int) :
    defaultDailyFine = 1/2 ∧
    (∀ t, sys.transactions.find? (fun t => t.id == tid) = some t →
      t.status = TxStatus.Active → t.dueDate < now →
      ⌈((now - t.dueDate : Int) : Rat) / (msPerDay : Rat)⌉ = d →
      calculateFineDefault sys now tid = (d : Rat) * (1/2)) := by
  refine ⟨rfl, ?_⟩
  intro t ht hst hlt hd
  unfold calculateFineDefault calculateFine
  rw [ht]
  simp only
  rw [if_neg (fun hc => hc hst), if_neg (not_le.mpr hlt)]
  show ((⌈((now - t.dueDate : Int) : Rat) / (msPerDay : Rat)⌉ : Int) : Rat) *
      defaultDailyFine = (d : Rat) * (1/2)
  rw [hd]
  rfl

/-- Witness for C10: two days overdue at the default rate charges 1. -/
theorem c10_default_rate_witness :
    calculateFineDefault sysAfterCheckout (16 * msPerDay) "0" = (2 : Rat) * (1/2) :=
  (c10_default_rate sysAfterCheckout (16 * msPerDay) "0" 2).2 tx0 rfl rfl
    (by decide)
    (by
      have h : ((16 * msPerDay - tx0.dueDate : Int) : Rat) / (msPerDay : Rat) =
          ((2 : Int) : Rat) := by
        norm_num [msPerDay, tx0]
      rw [h, Int.ceil_intCast])

end BorrowingSys
